import Mathlib

/-!
Shallow embedding of koyashiro/json-parser-rs: a two-stage JSON pipeline,
scanner (src/tokenize.rs) and recursive-descent parser (src/parse.rs), with
the shared error type (src/error.rs) and the value model (src/json.rs).

Modelling conventions:
- Rust `&str` input is embedded as `List Char`. The source mixes byte-level
  and char-level cursor steps, but every byte it inspects or counts is ASCII
  (non-ASCII bytes fall into catch-all arms that then read a whole `char`),
  so char-level slicing is equivalent to the source's byte slicing.
- `f64` number payloads are embedded as exact rationals: the scanner's
  float conversion is modelled by grammar acceptance plus the exact decimal
  value, which is what the claims compare.
- `HashMap<String, Value>` is embedded as an association list whose insert
  replaces the value of an existing key in place (last write wins), the
  observable behaviour of `HashMap::insert`.
- The `unwrap` inside `expect_number` can panic; a panic is not a value of
  the Rust function's return type, so the scanner's result type has a
  distinct `panic` outcome besides `ok` and `error`.
- Recursion in both stages is by a fuel parameter so that every definition
  is executable by kernel reduction; the wrappers `tokenize` and `parse`
  supply fuel strictly larger than the recursion depth reachable from their
  input (each scanner step consumes at least one character, and each parser
  step descends at most three fuel levels per consumed token), so the
  fuel-exhaustion branches are unreachable from the wrappers.
-/

set_option maxRecDepth 100000

namespace JsonRs

/-- Error type from src/error.rs. The enum there declares `UnexpectedEnd`,
`UnexpectedChar(char)` and `UnexpectedToken(String)`. In addition,
src/parse.rs line 9 returns `Error::UnexpectedNonWhitespace`, a variant that
is absent from the declaration in error.rs (the crate does not compile as
given); it is included here so that parse.rs can be embedded as written. -/
inductive Error where
  | UnexpectedEnd
  | UnexpectedChar (c : Char)
  | UnexpectedToken (t : String)
  | UnexpectedNonWhitespace
deriving DecidableEq, Repr

/-- Value type from src/json.rs. `Object`'s `HashMap<String, Value>` is an
association list; `Number`'s `f64` is an exact rational. -/
inductive Value where
  | Null
  | Bool (b : Bool)
  | Object (o : List (String × Value))
  | Array (a : List Value)
  | Number (n : ℚ)
  | String (s : String)

/-- `HashMap::insert` as used by parse_object (src/parse.rs line 83):
replaces the value stored under an existing key, otherwise appends. -/
def insertLWW (o : List (String × Value)) (k : String) (v : Value) :
    List (String × Value) :=
  match o with
  | [] => [(k, v)]
  | (k', v') :: rest =>
    if k' = k then (k, v) :: rest else (k', v') :: insertLWW rest k v

/-- Token type from src/tokenize.rs. -/
inductive Token where
  | BeginArray
  | BeginObject
  | EndArray
  | EndObject
  | NameSeparator
  | ValueSeparator
  | False
  | Null
  | True
  | Number (n : ℚ)
  | String (s : String)
deriving DecidableEq, Repr

/-- Modelled from the spec: the repository calls `Token::to_string()` (a
`Display` impl for `Token`) in parse.rs and in the error.rs test, but no
`Display` impl for `Token` appears under src/. Spec section 6 pins the
rendering of structural tokens to their literal punctuation (BeginArray
renders as the bracket) and the error.rs test shows `BeginArray` rendering
as the opening square bracket; keywords render as their spelling. The
`Number` and `String` renderings are not pinned by the spec and are not
relied on by any claim. -/
def tokenText : Token → String
  | .BeginArray => "["
  | .BeginObject => "\x7b"
  | .EndArray => "]"
  | .EndObject => "\x7d"
  | .NameSeparator => ":"
  | .ValueSeparator => ","
  | .False => "false"
  | .Null => "null"
  | .True => "true"
  | .Number _ => "number"
  | .String s => s

/-- Result of a call that can also abort the process: `panic` models a Rust
panic (reachable through the `unwrap` in expect_number). -/
inductive Outcome (α : Type) where
  | ok (a : α)
  | error (e : Error)
  | panic
deriving DecidableEq, Repr

/-- Longest leading run of ASCII digits, and the rest: the repeated
`while let Some('0'..='9') = iter.peek()` loops of expect_number. -/
def spanDigits : List Char → List Char × List Char
  | [] => ([], [])
  | c :: cs =>
    if c.isDigit then
      let (t, r) := spanDigits cs
      (c :: t, r)
    else ([], c :: cs)

/-- The greedy capture of expect_number (src/tokenize.rs lines 93-131):
optional minus, integer digits, optional fraction (a dot and digits),
optional exponent (an `e`, an optional sign, digits). Returns the captured
prefix and the remaining input; the source tracks the same split as a byte
count `cnt` with capture `&input[..cnt]` and remainder `&input[cnt..]`. -/
def numScan (input : List Char) : List Char × List Char :=
  let (m, p1) :=
    match input with
    | '-' :: r => (['-'], r)
    | _ => (([] : List Char), input)
  let (ip, p2) := spanDigits p1
  let (fp, p3) :=
    match p2 with
    | '.' :: r =>
      let (d, r') := spanDigits r
      ('.' :: d, r')
    | _ => (([] : List Char), p2)
  let (xp, p4) :=
    match p3 with
    | 'e' :: r =>
      let (sg, r1) :=
        match r with
        | '+' :: rr => (['+'], rr)
        | '-' :: rr => (['-'], rr)
        | _ => (([] : List Char), r)
      let (ed, r2) := spanDigits r1
      ('e' :: (sg ++ ed), r2)
    | _ => (([] : List Char), p3)
  (m ++ ip ++ fp ++ xp, p4)

/-- Numeric value of a digit string, most significant first. -/
def digitsToNat (l : List Char) : Nat :=
  l.foldl (fun a c => 10 * a + (c.toNat - 48)) 0

/-- Model of Rust `str::parse::<f64>()` on the scanner's captured
substrings: grammar acceptance per the standard library's documented
number grammar (optional sign, then a significand `Digits ['.'] [Digits]`
or `'.' Digits`, then an optional exponent `('e'|'E') [sign] Digits`, with
the whole string consumed), and the exact decimal value as a rational.
Rounding to binary and overflow to infinity are not modelled: they do not
affect acceptance, which is all the unwrap's success depends on. The
`inf`/`nan` alternatives are omitted: a captured substring contains only a
minus sign, digits, a dot, `e`, and a sign after `e`. -/
def ratOfNumStr (s : List Char) : Option ℚ :=
  let (neg, s1) :=
    match s with
    | '+' :: r => (false, r)
    | '-' :: r => (true, r)
    | _ => (false, s)
  let (ip, s2) := spanDigits s1
  let (fd, s3) :=
    match s2 with
    | '.' :: r =>
      let (d, r') := spanDigits r
      (d, r')
    | _ => (([] : List Char), s2)
  if ip.isEmpty && fd.isEmpty then none
  else
    let mant : Nat := digitsToNat ip * 10 ^ fd.length + digitsToNat fd
    let n : ℤ := if neg then -(mant : ℤ) else (mant : ℤ)
    match s3 with
    | [] => some (Rat.divInt n ((10 : ℤ) ^ fd.length))
    | e :: r1 =>
      if e = 'e' ∨ e = 'E' then
        let (eneg, r2) :=
          match r1 with
          | '+' :: r => (false, r)
          | '-' :: r => (true, r)
          | _ => (false, r1)
        let (ed, r3) := spanDigits r2
        if ed.isEmpty then none
        else if !r3.isEmpty then none
        else
          let ex := digitsToNat ed
          some (if eneg then Rat.divInt n ((10 : ℤ) ^ fd.length * (10 : ℤ) ^ ex)
                else Rat.divInt (n * (10 : ℤ) ^ ex) ((10 : ℤ) ^ fd.length))
      else none

/-- expect_number (src/tokenize.rs lines 89-136): greedy capture, then
`let n = s.parse().unwrap()`. `none` models the panic of the unwrap when
the captured substring is rejected by float parsing; otherwise the
remaining input (the source's `&p[cnt..]`) and the value. -/
def expect_number (input : List Char) : Option (List Char × ℚ) :=
  match ratOfNumStr (numScan input).1 with
  | none => none
  | some q => some ((numScan input).2, q)

/-- The scan loop of expect_string: characters up to the closing quote,
and the rest after it; `none` when the input ends first. -/
def strScan : List Char → Option (List Char × List Char)
  | [] => none
  | c :: cs =>
    if c = '"' then some ([], cs)
    else
      match strScan cs with
      | none => none
      | some (t, r) => some (c :: t, r)

/-- expect_string (src/tokenize.rs lines 138-168): requires a leading
quote (a different character is an UnexpectedToken built from that
character, as the source writes it; an empty input is UnexpectedEnd), then
scans to the closing quote. Returns the content (`&input[1..cnt]`) and the
remaining input (`&input[cnt..]` for the source's final byte count). -/
def expect_string (input : List Char) : Except Error (String × List Char) :=
  match input with
  | [] => .error .UnexpectedEnd
  | c :: rest =>
    if c = '"' then
      match strScan rest with
      | none => .error .UnexpectedEnd
      | some (content, r) => .ok (String.mk content, r)
    else .error (.UnexpectedToken (String.mk [c]))

/-- Shared shape of expect_null / expect_false / expect_true
(src/tokenize.rs lines 170-216): compare the input against the keyword
character by character; a mismatch is an UnexpectedToken built from the
diverging input character (as the source writes it), a premature end is
UnexpectedEnd. -/
def expectKeyword : List Char → List Char → Except Error Unit
  | [], _ => .ok ()
  | _ :: _, [] => .error .UnexpectedEnd
  | k :: ks, t :: ts =>
    if t ≠ k then .error (.UnexpectedToken (String.mk [t]))
    else expectKeyword ks ts

def expect_null (s : List Char) : Except Error Unit :=
  expectKeyword ['n', 'u', 'l', 'l'] s

def expect_false (s : List Char) : Except Error Unit :=
  expectKeyword ['f', 'a', 'l', 's', 'e'] s

def expect_true (s : List Char) : Except Error Unit :=
  expectKeyword ['t', 'r', 'u', 'e'] s

/-- Prepend a token to the eventual token list of a continuation of the
scan loop (the source pushes into a vector and keeps looping; an error or
panic later in the loop discards the vector). -/
def pushTok (t : Token) : Outcome (List Token) → Outcome (List Token)
  | .ok ts => .ok (t :: ts)
  | .error e => .error e
  | .panic => .panic

/-- The scan loop of tokenize (src/tokenize.rs lines 20-87), with fuel.
Each arm mirrors one `match c` arm of the source in order: whitespace is
skipped, structural characters become their tokens, a quote hands off to
expect_string, a minus or digit to expect_number (whose failed unwrap is a
panic), `f`/`n`/`t` to the keyword matchers (advancing by the keyword
length on success: `&p[5..]` or `&p[4..]`), and any other character is
rejected with an UnexpectedToken built from it (src/tokenize.rs lines
79-82, as the source writes it). The fuel-exhaustion branch is unreachable
when the fuel exceeds the input length, since every arm consumes at least
one character. -/
def tokenizeAux : Nat → List Char → Outcome (List Token)
  | 0, _ => .error .UnexpectedEnd
  | _ + 1, [] => .ok []
  | n + 1, c :: p =>
    if c = ' ' ∨ c = '\t' ∨ c = '\n' ∨ c = '\r' then
      tokenizeAux n p
    else if c = '[' then pushTok .BeginArray (tokenizeAux n p)
    else if c = '{' then pushTok .BeginObject (tokenizeAux n p)
    else if c = ']' then pushTok .EndArray (tokenizeAux n p)
    else if c = '}' then pushTok .EndObject (tokenizeAux n p)
    else if c = ':' then pushTok .NameSeparator (tokenizeAux n p)
    else if c = ',' then pushTok .ValueSeparator (tokenizeAux n p)
    else if c = '"' then
      match expect_string (c :: p) with
      | .error e => .error e
      | .ok (s, rest) => pushTok (.String s) (tokenizeAux n rest)
    else if c = '-' ∨ c.isDigit then
      match expect_number (c :: p) with
      | none => .panic
      | some (rest, q) => pushTok (.Number q) (tokenizeAux n rest)
    else if c = 'f' then
      match expect_false (c :: p) with
      | .error e => .error e
      | .ok _ => pushTok .False (tokenizeAux n (p.drop 4))
    else if c = 'n' then
      match expect_null (c :: p) with
      | .error e => .error e
      | .ok _ => pushTok .Null (tokenizeAux n (p.drop 3))
    else if c = 't' then
      match expect_true (c :: p) with
      | .error e => .error e
      | .ok _ => pushTok .True (tokenizeAux n (p.drop 3))
    else .error (.UnexpectedToken (String.mk [c]))

/-- tokenize (src/tokenize.rs lines 20-87). -/
def tokenize (s : String) : Outcome (List Token) :=
  tokenizeAux (s.data.length + 1) s.data

/-!
The parser (src/parse.rs). The Rust `&mut &[Token]` cursor is embedded by
returning the remaining tokens alongside the parsed value. The mutual
recursion is by fuel; every recursive call decrements it, and the
fuel-exhaustion branches are unreachable from `parse`, which supplies three
fuel units per token plus three: between two consecutive token
consumptions the call stack descends at most three definitions
(value to object to loop, or value to array to loop).
-/

mutual

/-- parse_value (src/parse.rs lines 14-41): dispatch on the first token;
scalars are consumed directly, BeginObject / BeginArray hand the full
cursor to the object / array productions, any other token is an
UnexpectedToken carrying its rendering, and an empty cursor is
UnexpectedEnd. -/
def parse_value : Nat → List Token → Except Error (Value × List Token)
  | 0, _ => .error .UnexpectedEnd
  | fuel + 1, ts =>
    match ts with
    | .Null :: rest => .ok (.Null, rest)
    | .False :: rest => .ok (.Bool false, rest)
    | .True :: rest => .ok (.Bool true, rest)
    | .Number n :: rest => .ok (.Number n, rest)
    | .String s :: rest => .ok (.String s, rest)
    | .BeginObject :: _ => parse_object fuel ts
    | .BeginArray :: _ => parse_array fuel ts
    | t :: _ => .error (.UnexpectedToken (tokenText t))
    | [] => .error .UnexpectedEnd

/-- parse_object (src/parse.rs lines 43-48): require BeginObject, then
enter the member loop with an empty accumulated mapping. -/
def parse_object : Nat → List Token → Except Error (Value × List Token)
  | 0, _ => .error .UnexpectedEnd
  | fuel + 1, ts =>
    match ts with
    | .BeginObject :: rest => parse_object_loop fuel [] rest
    | t :: _ => .error (.UnexpectedToken (tokenText t))
    | [] => .error .UnexpectedEnd

/-- The member loop of parse_object (src/parse.rs lines 52-84): EndObject
closes the object; otherwise a ValueSeparator is required exactly when the
mapping is non-empty, then a String key, a NameSeparator, a value, and the
insertion (overwriting an existing key). -/
def parse_object_loop :
    Nat → List (String × Value) → List Token →
      Except Error (Value × List Token)
  | 0, _, _ => .error .UnexpectedEnd
  | fuel + 1, o, ts =>
    match ts with
    | .EndObject :: rest => .ok (.Object o, rest)
    | _ =>
      match (if o.isEmpty then Except.ok ts
        else
          match ts with
          | .ValueSeparator :: r => Except.ok r
          | t :: _ => Except.error (Error.UnexpectedToken (tokenText t))
          | [] => Except.error Error.UnexpectedEnd) with
      | .error e => .error e
      | .ok ts1 =>
        match ts1 with
        | .String k :: ts2 =>
          (match ts2 with
           | .NameSeparator :: ts3 =>
             (match parse_value fuel ts3 with
              | .error e => .error e
              | .ok (v, ts4) => parse_object_loop fuel (insertLWW o k v) ts4)
           | t :: _ => .error (.UnexpectedToken (tokenText t))
           | [] => .error .UnexpectedEnd)
        | t :: _ => .error (.UnexpectedToken (tokenText t))
        | [] => .error .UnexpectedEnd

/-- parse_array (src/parse.rs lines 87-92): require BeginArray, then enter
the element loop with an empty accumulator. -/
def parse_array : Nat → List Token → Except Error (Value × List Token)
  | 0, _ => .error .UnexpectedEnd
  | fuel + 1, ts =>
    match ts with
    | .BeginArray :: rest => parse_array_loop fuel [] rest
    | t :: _ => .error (.UnexpectedToken (tokenText t))
    | [] => .error .UnexpectedEnd

/-- The element loop of parse_array (src/parse.rs lines 95-111): EndArray
closes the array; otherwise a ValueSeparator is required exactly when the
accumulator is non-empty, then a value is parsed and pushed. -/
def parse_array_loop :
    Nat → List Value → List Token → Except Error (Value × List Token)
  | 0, _, _ => .error .UnexpectedEnd
  | fuel + 1, a, ts =>
    match ts with
    | .EndArray :: rest => .ok (.Array a, rest)
    | _ =>
      match (if a.isEmpty then Except.ok ts
        else
          match ts with
          | .ValueSeparator :: r => Except.ok r
          | t :: _ => Except.error (Error.UnexpectedToken (tokenText t))
          | [] => Except.error Error.UnexpectedEnd) with
      | .error e => .error e
      | .ok ts1 =>
        match parse_value fuel ts1 with
        | .error e => .error e
        | .ok (v, ts2) => parse_array_loop fuel (a ++ [v]) ts2

end

/-- parse (src/parse.rs lines 5-12): parse one value, then require the
cursor to be exhausted; otherwise the source returns
`Err(Error::UnexpectedNonWhitespace)` (a variant absent from the Error
declaration in error.rs). -/
def parse (ts : List Token) : Except Error Value :=
  match parse_value (3 * ts.length + 3) ts with
  | .error e => .error e
  | .ok (v, rest) =>
    if rest.isEmpty then .ok v else .error .UnexpectedNonWhitespace

/-- The composition from src/json.rs (`Value::from_str`, the spec's
`parse_document`): tokenize, then parse. -/
def parse_document (s : String) : Outcome Value :=
  match tokenize s with
  | .panic => .panic
  | .error e => .error e
  | .ok ts =>
    match parse ts with
    | .ok v => .ok v
    | .error e => .error e

/-- Association-list lookup: the observable read of the embedded
`HashMap<String, Value>`. -/
def lookup : List (String × Value) → String → Option Value
  | [], _ => none
  | (k', v) :: rest, k => if k' = k then some v else lookup rest k

/-- The value of the textually last member with the given key in a member
sequence (none when the key never occurs). Specification device for the
last-write-wins claim. -/
def lastValue : List (String × Value) → String → Option Value
  | [], _ => none
  | (k', v) :: rest, k =>
    match lastValue rest k with
    | some w => some w
    | none => if k' = k then some v else none

/-- Specification mirror of parse_object_loop that records the members in
textual order instead of inserting them into the mapping: same token
discipline (EndObject closes, a ValueSeparator is required exactly when
the accumulator is non-empty, then key, NameSeparator, value by the real
parse_value), but the accumulator is the append-only member sequence. It
gives a name to "the members of the object document in textual order"
against which the mapping built by insertLWW is characterised. -/
def parse_object_members :
    Nat → List (String × Value) → List Token →
      Except Error (List (String × Value) × List Token)
  | 0, _, _ => .error .UnexpectedEnd
  | fuel + 1, ms, ts =>
    match ts with
    | .EndObject :: rest => .ok (ms, rest)
    | _ =>
      match (if ms.isEmpty then Except.ok ts
        else
          match ts with
          | .ValueSeparator :: r => Except.ok r
          | t :: _ => Except.error (Error.UnexpectedToken (tokenText t))
          | [] => Except.error Error.UnexpectedEnd) with
      | .error e => .error e
      | .ok ts1 =>
        match ts1 with
        | .String k :: ts2 =>
          (match ts2 with
           | .NameSeparator :: ts3 =>
             (match parse_value fuel ts3 with
              | .error e => .error e
              | .ok (v, ts4) => parse_object_members fuel (ms ++ [(k, v)]) ts4)
           | t :: _ => .error (.UnexpectedToken (tokenText t))
           | [] => .error .UnexpectedEnd)
        | t :: _ => .error (.UnexpectedToken (tokenText t))
        | [] => .error .UnexpectedEnd

/-- The object value the loop would return for a run of the member mirror:
errors pass through, and a recorded member sequence becomes the Object of
its insertLWW-fold (the mapping obtained by inserting the members in
textual order into an empty map). -/
def objResult (r : Except Error (List (String × Value) × List Token)) :
    Except Error (Value × List Token) :=
  match r with
  | .error e => .error e
  | .ok (ms, rest) =>
    .ok (.Object (ms.foldl (fun m p => insertLWW m p.1 p.2) []), rest)

/-! Helper lemmas shared by the claim theorems. -/

/-- insertLWW never returns the empty mapping. -/
lemma insertLWW_ne_nil (o : List (String × Value)) (k : String) (v : Value) :
    insertLWW o k v ≠ [] := by
  cases o with
  | nil => simp [insertLWW]
  | cons p rest =>
    obtain ⟨k', v'⟩ := p
    simp only [insertLWW]
    split <;> simp

/-- Folding insertLWW over members preserves non-emptiness of the map. -/
lemma foldl_insertLWW_ne_nil :
    ∀ (ms o : List (String × Value)), o ≠ [] →
      ms.foldl (fun m p => insertLWW m p.1 p.2) o ≠ [] := by
  intro ms
  induction ms with
  | nil => intro o h; simpa using h
  | cons p ms' ih =>
    intro o h
    simpa using ih (insertLWW o p.1 p.2) (insertLWW_ne_nil o p.1 p.2)

/-- The mapping built by folding members onto a fresh insertion is never
empty (the emptiness test the loop uses to decide whether a separator is
required). -/
lemma foldl_insertLWW_isEmpty_false (ms o : List (String × Value))
    (k : String) (v : Value) :
    (ms.foldl (fun m p => insertLWW m p.1 p.2)
      (insertLWW o k v)).isEmpty = false := by
  have h := foldl_insertLWW_ne_nil ms (insertLWW o k v)
    (insertLWW_ne_nil o k v)
  cases hF : ms.foldl (fun m p => insertLWW m p.1 p.2) (insertLWW o k v) with
  | nil => exact absurd hF h
  | cons a l => rfl

/-- Reading the mapping after an insertLWW: the inserted key now has the
inserted value and every other key is unchanged. -/
lemma lookup_insertLWW (o : List (String × Value)) (k' k : String)
    (v : Value) :
    lookup (insertLWW o k' v) k = if k' = k then some v else lookup o k := by
  induction o with
  | nil => simp [insertLWW, lookup]
  | cons p o' ih =>
    obtain ⟨a, b⟩ := p
    simp only [insertLWW]
    by_cases hak : a = k'
    · subst hak
      by_cases hk : a = k <;> simp [lookup, hk]
    · rw [if_neg hak]
      by_cases hak2 : a = k
      · have hk'k : ¬(k' = k) := fun h => hak (hak2.trans h.symm)
        simp [lookup, hak2, hk'k]
      · simp [lookup, hak2, ih]

/-- Reading the mapping built by folding insertLWW over a member sequence:
a key maps to the value of its textually last occurrence, and falls back
to the initial mapping when it never occurs. -/
lemma lookup_foldl_insertLWW :
    ∀ (ms o : List (String × Value)) (k : String),
      lookup (ms.foldl (fun m p => insertLWW m p.1 p.2) o) k =
        (match lastValue ms k with
         | some w => some w
         | none => lookup o k) := by
  intro ms
  induction ms with
  | nil => intro o k; simp [lastValue]
  | cons p ms' ih =>
    intro o k
    obtain ⟨k', v⟩ := p
    simp only [List.foldl_cons, lastValue]
    rw [ih]
    cases hlv : lastValue ms' k with
    | some w => simp
    | none =>
      simp only []
      rw [lookup_insertLWW]
      by_cases hk : k' = k <;> simp [hk]

/-- Every run of the member loop of parse_object computes the
insertLWW-fold, in textual order, of the member sequence recorded by
parse_object_members, with identical cursor movement and errors. -/
lemma parse_object_loop_members :
    ∀ (n : Nat) (ms : List (String × Value)) (ts : List Token),
      parse_object_loop n (ms.foldl (fun m p => insertLWW m p.1 p.2) []) ts =
        objResult (parse_object_members n ms ts) := by
  intro n
  induction n with
  | zero =>
    intro ms ts
    simp [parse_object_loop, parse_object_members, objResult]
  | succ n ih =>
    intro ms ts
    cases ts with
    | nil =>
      cases ms <;>
        simp [parse_object_loop, parse_object_members, objResult,
          foldl_insertLWW_isEmpty_false]
    | cons t rest =>
      cases t
      case EndObject =>
        simp [parse_object_loop, parse_object_members, objResult]
      case String k =>
        cases ms with
        | cons p ms' =>
          simp [parse_object_loop, parse_object_members, objResult,
            foldl_insertLWW_isEmpty_false]
        | nil =>
          cases rest with
          | nil =>
            simp [parse_object_loop, parse_object_members, objResult]
          | cons r1 rest1 =>
            cases r1
            case NameSeparator =>
              cases hpv : parse_value n rest1 with
              | error e =>
                simp [parse_object_loop, parse_object_members, objResult,
                  hpv]
              | ok pr =>
                obtain ⟨v, ts4⟩ := pr
                simp [parse_object_loop, parse_object_members, hpv]
                exact ih [(k, v)] ts4
            all_goals
              simp [parse_object_loop, parse_object_members, objResult]
      case ValueSeparator =>
        cases ms with
        | nil =>
          simp [parse_object_loop, parse_object_members, objResult]
        | cons p ms' =>
          cases rest with
          | nil =>
            simp [parse_object_loop, parse_object_members, objResult,
              foldl_insertLWW_isEmpty_false]
          | cons r0 rest' =>
            cases r0
            case String k =>
              cases rest' with
              | nil =>
                simp [parse_object_loop, parse_object_members, objResult,
                  foldl_insertLWW_isEmpty_false]
              | cons r1 rest'' =>
                cases r1
                case NameSeparator =>
                  cases hpv : parse_value n rest'' with
                  | error e =>
                    simp [parse_object_loop, parse_object_members,
                      objResult, foldl_insertLWW_isEmpty_false, hpv]
                  | ok pr =>
                    obtain ⟨v, ts4⟩ := pr
                    have hfold : (ms' ++ [(k, v)]).foldl
                        (fun m q => insertLWW m q.1 q.2)
                        (insertLWW [] p.1 p.2) =
                        insertLWW (ms'.foldl
                          (fun m q => insertLWW m q.1 q.2)
                          (insertLWW [] p.1 p.2)) k v := by
                      rw [List.foldl_append]
                      rfl
                    simp [parse_object_loop, parse_object_members,
                      foldl_insertLWW_isEmpty_false, hpv]
                    rw [← hfold]
                    exact ih ((p :: ms') ++ [(k, v)]) ts4
                all_goals
                  simp [parse_object_loop, parse_object_members, objResult,
                    foldl_insertLWW_isEmpty_false]
            all_goals
              simp [parse_object_loop, parse_object_members, objResult,
                foldl_insertLWW_isEmpty_false]
      all_goals
        cases ms <;>
          simp [parse_object_loop, parse_object_members, objResult,
            foldl_insertLWW_isEmpty_false]

/-- Claim C1: for each of the literal documents null, false, true, 12345,
-123.45e-123, the quoted string, the empty array and the empty object,
tokenize followed by parse succeeds and yields exactly the corresponding
Value (numbers as their exact decimal value: -123.45e-123 is
-12345 / 10 ^ 125). -/
theorem c1_literal_documents :
    parse_document "null" = .ok .Null ∧
    parse_document "false" = .ok (.Bool false) ∧
    parse_document "true" = .ok (.Bool true) ∧
    parse_document "12345" = .ok (.Number 12345) ∧
    parse_document "-123.45e-123" = .ok (.Number (-(12345 : ℚ) / 10 ^ 125)) ∧
    parse_document "\"string\"" = .ok (.String "string") ∧
    parse_document "[]" = .ok (.Array []) ∧
    parse_document "\x7b\x7d" = .ok (.Object []) := by
  refine ⟨rfl, rfl, rfl, rfl, ?_, rfl, rfl, rfl⟩
  have h : parse_document "-123.45e-123" =
      .ok (.Number (Rat.divInt (-12345) (10 ^ 125))) := rfl
  rw [h, Rat.divInt_eq_div]
  norm_num

/-- Claim C2, evaluated at a failing input: on trailing tokens after a
complete value, parse returns the undeclared Error.UnexpectedNonWhitespace
(src/parse.rs line 9) rather than an UnexpectedToken naming the first
trailing token; the Ok-implies-exhausted half of the claim does hold. -/
theorem c2_trailing_tokens :
    parse [Token.Null, Token.Null] = .error .UnexpectedNonWhitespace ∧
    parse_document "null null" = .error .UnexpectedNonWhitespace ∧
    Error.UnexpectedNonWhitespace ≠ Error.UnexpectedToken (tokenText Token.Null) ∧
    (∀ (ts : List Token) (v : Value), parse ts = .ok v →
      parse_value (3 * ts.length + 3) ts = .ok (v, [])) := by
  refine ⟨rfl, rfl, by decide, ?_⟩
  intro ts v h
  unfold parse at h
  revert h
  match hpv : parse_value (3 * ts.length + 3) ts with
  | .error e => intro h; exact absurd h (by simp)
  | .ok (w, rest) =>
    cases rest with
    | nil => intro h; simp at h; rw [h]
    | cons t r => intro h; exact absurd h (by simp)

/-- Claim C2 witness: the universal conjunct applied to the one-token
document, whose parse succeeds with the cursor exhausted. -/
theorem c2_trailing_tokens_witness :
    parse_value (3 * [Token.Null].length + 3) [Token.Null] =
      .ok (.Null, []) :=
  c2_trailing_tokens.2.2.2 [Token.Null] Value.Null rfl

/-- Claim C3: object keys are deduplicated last-write-wins, for every
object document. Every parse of an object enters parse_object_loop with
the empty mapping (first conjunct, covering nested objects as well since
each is parsed by its own loop run); every loop run builds exactly the
insertLWW-fold, in textual order, of the member sequence recorded by the
append-only mirror parse_object_members — same members, same cursor, same
errors (second conjunct, for any number of members, any repeats, any
values); and in such a fold every key reads as the value of its textually
last occurrence, so each later member replaces an earlier one with the
same key (third conjunct). In particular the repeated-key document yields
an object that maps k to 2 and, by lookup, contains no other entry. -/
theorem c3_object_last_write_wins :
    (∀ (fuel : Nat) (rest : List Token),
      parse_object (fuel + 1) (Token.BeginObject :: rest) =
        parse_object_loop fuel [] rest) ∧
    (∀ (n : Nat) (ms : List (String × Value)) (ts : List Token),
      parse_object_loop n
          (ms.foldl (fun m p => insertLWW m p.1 p.2) []) ts =
        objResult (parse_object_members n ms ts)) ∧
    (∀ (ms : List (String × Value)) (k : String),
      lookup (ms.foldl (fun m p => insertLWW m p.1 p.2) []) k =
        lastValue ms k) ∧
    parse_document "\x7b\"k\":1,\"k\":2\x7d" =
      .ok (.Object [("k", .Number 2)]) ∧
    (∀ k : String,
      lookup [("k", Value.Number 2)] k =
        if "k" = k then some (Value.Number 2) else none) := by
  refine ⟨?_, ?_, ?_, rfl, ?_⟩
  · intro fuel rest
    rfl
  · intro n ms ts
    exact parse_object_loop_members n ms ts
  · intro ms k
    rw [lookup_foldl_insertLWW ms [] k]
    cases hlv : lastValue ms k <;> simp [lookup]
  · intro k
    simp [lookup]

/-- Claim C6: trailing commas are rejected with UnexpectedToken (the
separator is consumed only between two existing elements or members, never
after the last one or before the first), while the empty array and empty
object parse successfully. -/
theorem c6_trailing_comma :
    parse_document "[1,]" = .error (.UnexpectedToken "]") ∧
    parse_document "\x7b\"a\":1,\x7d" = .error (.UnexpectedToken "\x7d") ∧
    parse_document "[,1]" = .error (.UnexpectedToken ",") ∧
    parse_document "[]" = .ok (.Array []) ∧
    parse_document "\x7b\x7d" = .ok (.Object []) :=
  ⟨rfl, rfl, rfl, rfl, rfl⟩

/-- Claim C7: documents that end while a construct is incomplete fail with
UnexpectedEnd: the unclosed array with a dangling separator, the unclosed
object, and the unterminated string (already at tokenize). -/
theorem c7_unexpected_end :
    parse_document "[1," = .error .UnexpectedEnd ∧
    parse_document "\x7b" = .error .UnexpectedEnd ∧
    tokenize "\"abc" = .error .UnexpectedEnd ∧
    parse_document "\"abc" = .error .UnexpectedEnd :=
  ⟨rfl, rfl, by decide, rfl⟩

/-- A character that starts a number (a minus or a digit) is none of the
characters the scan loop tests before reaching the number arm. -/
lemma numStart_class (c : Char) (h : c = '-' ∨ c.isDigit) :
    c ≠ ' ' ∧ c ≠ '\t' ∧ c ≠ '\n' ∧ c ≠ '\r' ∧ c ≠ '[' ∧ c ≠ '{' ∧
      c ≠ ']' ∧ c ≠ '}' ∧ c ≠ ':' ∧ c ≠ ',' ∧ c ≠ '"' := by
  rcases h with h | h
  · subst h
    decide
  · refine ⟨?_, ?_, ?_, ?_, ?_, ?_, ?_, ?_, ?_, ?_, ?_⟩ <;>
      (intro he; rw [he] at h; exact absurd h (by decide))

/-- Claim C4, evaluated at the failing input: the scanner rejects a
character that begins no lexical class with UnexpectedToken built from
that character (src/tokenize.rs lines 79-82), not with the UnexpectedChar
variant the claim names. -/
theorem c4_unexpected_char_divergence :
    tokenize "@" = .error (.UnexpectedToken "@") ∧
    tokenize "@" ≠ .error (.UnexpectedChar '@') :=
  ⟨by decide, by decide⟩

/-- Claim C5: the scanner's greedy number grammar accepts captures that
float parsing rejects (a lone minus, a digit run followed by a bare
exponent marker), and on every input whose first character enters the
number arm with such a capture, tokenize ends in the panic of the unwrap
inside expect_number rather than in a recoverable error. -/
theorem c5_number_panic :
    (∀ (n : Nat) (c : Char) (rest : List Char),
      c = '-' ∨ c.isDigit →
      ratOfNumStr (numScan (c :: rest)).1 = none →
      tokenizeAux (n + 1) (c :: rest) = .panic) ∧
    ratOfNumStr (numScan ['-']).1 = none ∧
    ratOfNumStr (numScan ['1', 'e']).1 = none ∧
    tokenize "-" = .panic ∧
    tokenize "1e" = .panic := by
  refine ⟨?_, by decide, by decide, by decide, by decide⟩
  intro n c rest h hnone
  obtain ⟨h1, h2, h3, h4, h5, h6, h7, h8, h9, h10, h11⟩ := numStart_class c h
  simp [tokenizeAux, h1, h2, h3, h4, h5, h6, h7, h8, h9, h10, h11, h,
    expect_number, hnone]

/-- Claim C5 witness: the universal conjunct applied to the lone-minus
document, whose scan panics. -/
theorem c5_number_panic_witness : tokenizeAux 1 ['-'] = .panic :=
  c5_number_panic.1 0 '-' [] (Or.inl rfl) (by decide)

/-- Claim C8: keyword matching fails at the first diverging character: a
mismatch after any shared prefix of the keyword is an UnexpectedToken
built from the diverging input character, running out of input inside the
keyword is UnexpectedEnd, and tokenize reports accordingly on partial or
mismatched keywords. -/
theorem c8_keyword_divergence :
    (∀ (k1 k2 : List Char) (c d : Char) (rest : List Char), c ≠ d →
      expectKeyword (k1 ++ c :: k2) (k1 ++ d :: rest) =
        .error (.UnexpectedToken (String.mk [d]))) ∧
    (∀ (k1 k2 : List Char) (c : Char),
      expectKeyword (k1 ++ c :: k2) k1 = .error .UnexpectedEnd) ∧
    tokenize "tru" = .error .UnexpectedEnd ∧
    tokenize "tree" = .error (.UnexpectedToken "e") ∧
    tokenize "nulk" = .error (.UnexpectedToken "k") ∧
    tokenize "falsX" = .error (.UnexpectedToken "X") := by
  refine ⟨?_, ?_, by decide, by decide, by decide, by decide⟩
  · intro k1 k2 c d rest hcd
    induction k1 with
    | nil => simp [expectKeyword, Ne.symm hcd]
    | cons a k1' ih => simp [expectKeyword, ih]
  · intro k1 k2 c
    induction k1 with
    | nil => simp [expectKeyword]
    | cons a k1' ih => simp [expectKeyword, ih]

/-- Claim C8 witness: the two universal conjuncts applied to concrete
mismatched and cut-off inputs for the keyword true. -/
theorem c8_keyword_divergence_witness :
    expectKeyword ['t', 'r', 'u', 'e'] ['t', 'x'] =
      .error (.UnexpectedToken "x") ∧
    expectKeyword ['t', 'r', 'u', 'e'] ['t', 'r', 'u'] =
      .error .UnexpectedEnd :=
  ⟨c8_keyword_divergence.1 ['t'] ['u', 'e'] 'r' 'x' [] (by decide),
   c8_keyword_divergence.2.1 ['t', 'r', 'u'] [] 'e'⟩

/-- Claim C9: whitespace characters are skipped by the scan loop without
emitting a token, so the spaced and the compact document tokenize to the
same token sequence and parse to equal values. -/
theorem c9_whitespace_skipped :
    (∀ (n : Nat) (c : Char) (rest : List Char),
      c = ' ' ∨ c = '\t' ∨ c = '\n' ∨ c = '\r' →
      tokenizeAux (n + 1) (c :: rest) = tokenizeAux n rest) ∧
    tokenize " [ 1 , 2 ] " = tokenize "[1,2]" ∧
    parse_document " [ 1 , 2 ] " = parse_document "[1,2]" := by
  refine ⟨?_, by decide, rfl⟩
  intro n c rest h
  simp [tokenizeAux, h]

/-- Claim C9 witness: the universal conjunct applied to a single leading
space. -/
theorem c9_whitespace_skipped_witness :
    tokenizeAux 2 [' ', '['] = tokenizeAux 1 ['['] :=
  c9_whitespace_skipped.1 1 ' ' ['['] (Or.inl rfl)

/-- pushTok only passes an error through. -/
lemma pushTok_error (t : Token) (o : Outcome (List Token)) (e : Error)
    (h : pushTok t o = .error e) : o = .error e := by
  cases o <;> simp only [pushTok] at h <;> simp_all

/-- Every error of expect_string is an UnexpectedToken or UnexpectedEnd. -/
lemma expect_string_error_shape (l : List Char) (e : Error)
    (h : expect_string l = .error e) :
    (∃ t, e = Error.UnexpectedToken t) ∨ e = .UnexpectedEnd := by
  cases l with
  | nil =>
    simp only [expect_string] at h
    injection h with h2
    exact Or.inr h2.symm
  | cons c rest =>
    simp only [expect_string] at h
    split at h
    · split at h
      · injection h with h2
        exact Or.inr h2.symm
      · simp at h
    · injection h with h2
      exact Or.inl ⟨_, h2.symm⟩

/-- Every error of expectKeyword is an UnexpectedToken or UnexpectedEnd. -/
lemma expectKeyword_error_shape :
    ∀ (ks l : List Char) (e : Error), expectKeyword ks l = .error e →
      (∃ t, e = Error.UnexpectedToken t) ∨ e = .UnexpectedEnd := by
  intro ks
  induction ks with
  | nil =>
    intro l e h
    simp [expectKeyword] at h
  | cons k ks' ih =>
    intro l e h
    cases l with
    | nil =>
      simp only [expectKeyword] at h
      injection h with h2
      exact Or.inr h2.symm
    | cons t ts =>
      simp only [expectKeyword] at h
      split at h
      · injection h with h2
        exact Or.inl ⟨_, h2.symm⟩
      · exact ih _ _ h

/-- One unfolded step of the scan loop, for case analysis in proofs. -/
lemma tokenizeAux_cons (n : Nat) (c : Char) (p : List Char) :
    tokenizeAux (n + 1) (c :: p) =
      (if c = ' ' ∨ c = '\t' ∨ c = '\n' ∨ c = '\r' then
        tokenizeAux n p
      else if c = '[' then pushTok .BeginArray (tokenizeAux n p)
      else if c = '{' then pushTok .BeginObject (tokenizeAux n p)
      else if c = ']' then pushTok .EndArray (tokenizeAux n p)
      else if c = '}' then pushTok .EndObject (tokenizeAux n p)
      else if c = ':' then pushTok .NameSeparator (tokenizeAux n p)
      else if c = ',' then pushTok .ValueSeparator (tokenizeAux n p)
      else if c = '"' then
        match expect_string (c :: p) with
        | .error e => .error e
        | .ok (s, rest) => pushTok (.String s) (tokenizeAux n rest)
      else if c = '-' ∨ c.isDigit then
        match expect_number (c :: p) with
        | none => .panic
        | some (rest, q) => pushTok (.Number q) (tokenizeAux n rest)
      else if c = 'f' then
        match expect_false (c :: p) with
        | .error e => .error e
        | .ok _ => pushTok .False (tokenizeAux n (p.drop 4))
      else if c = 'n' then
        match expect_null (c :: p) with
        | .error e => .error e
        | .ok _ => pushTok .Null (tokenizeAux n (p.drop 3))
      else if c = 't' then
        match expect_true (c :: p) with
        | .error e => .error e
        | .ok _ => pushTok .True (tokenizeAux n (p.drop 3))
      else .error (.UnexpectedToken (String.mk [c]))) := rfl

/-- Every error of the scan loop is an UnexpectedToken or UnexpectedEnd:
no branch of tokenize constructs the UnexpectedChar variant. -/
lemma tokenizeAux_error_shape :
    ∀ (n : Nat) (l : List Char) (e : Error), tokenizeAux n l = .error e →
      (∃ t, e = Error.UnexpectedToken t) ∨ e = .UnexpectedEnd := by
  intro n
  induction n with
  | zero =>
    intro l e h
    simp only [tokenizeAux] at h
    injection h with h2
    exact Or.inr h2.symm
  | succ n ih =>
    intro l e h
    cases l with
    | nil => simp [tokenizeAux] at h
    | cons c p =>
      rw [tokenizeAux_cons] at h
      by_cases hws : c = ' ' ∨ c = '\t' ∨ c = '\n' ∨ c = '\r'
      · rw [if_pos hws] at h
        exact ih _ _ h
      rw [if_neg hws] at h
      by_cases h1 : c = '['
      · rw [if_pos h1] at h
        exact ih _ _ (pushTok_error _ _ _ h)
      rw [if_neg h1] at h
      by_cases h2 : c = '{'
      · rw [if_pos h2] at h
        exact ih _ _ (pushTok_error _ _ _ h)
      rw [if_neg h2] at h
      by_cases h3 : c = ']'
      · rw [if_pos h3] at h
        exact ih _ _ (pushTok_error _ _ _ h)
      rw [if_neg h3] at h
      by_cases h4 : c = '}'
      · rw [if_pos h4] at h
        exact ih _ _ (pushTok_error _ _ _ h)
      rw [if_neg h4] at h
      by_cases h5 : c = ':'
      · rw [if_pos h5] at h
        exact ih _ _ (pushTok_error _ _ _ h)
      rw [if_neg h5] at h
      by_cases h6 : c = ','
      · rw [if_pos h6] at h
        exact ih _ _ (pushTok_error _ _ _ h)
      rw [if_neg h6] at h
      by_cases h7 : c = '"'
      · rw [if_pos h7] at h
        cases hes : expect_string (c :: p) with
        | error e' =>
          simp only [hes] at h
          injection h with hh
          subst hh
          exact expect_string_error_shape _ _ hes
        | ok pr =>
          obtain ⟨s, rest⟩ := pr
          simp only [hes] at h
          exact ih _ _ (pushTok_error _ _ _ h)
      rw [if_neg h7] at h
      by_cases hnum : c = '-' ∨ c.isDigit
      · rw [if_pos hnum] at h
        cases hen : expect_number (c :: p) with
        | none => simp [hen] at h
        | some pr =>
          obtain ⟨rest, q⟩ := pr
          simp only [hen] at h
          exact ih _ _ (pushTok_error _ _ _ h)
      rw [if_neg hnum] at h
      by_cases hf : c = 'f'
      · rw [if_pos hf] at h
        cases hek : expect_false (c :: p) with
        | error e' =>
          simp only [hek] at h
          injection h with hh
          subst hh
          exact expectKeyword_error_shape _ _ _ hek
        | ok u =>
          simp only [hek] at h
          exact ih _ _ (pushTok_error _ _ _ h)
      rw [if_neg hf] at h
      by_cases hn : c = 'n'
      · rw [if_pos hn] at h
        cases hek : expect_null (c :: p) with
        | error e' =>
          simp only [hek] at h
          injection h with hh
          subst hh
          exact expectKeyword_error_shape _ _ _ hek
        | ok u =>
          simp only [hek] at h
          exact ih _ _ (pushTok_error _ _ _ h)
      rw [if_neg hn] at h
      by_cases ht : c = 't'
      · rw [if_pos ht] at h
        cases hek : expect_true (c :: p) with
        | error e' =>
          simp only [hek] at h
          injection h with hh
          subst hh
          exact expectKeyword_error_shape _ _ _ hek
        | ok u =>
          simp only [hek] at h
          exact ih _ _ (pushTok_error _ _ _ h)
      rw [if_neg ht] at h
      injection h with hh
      exact Or.inl ⟨_, hh.symm⟩

/-- None of the five parser productions ever returns UnexpectedChar, at
any fuel. -/
lemma parse_no_unexpected_char :
    ∀ n : Nat,
      (∀ ts c, parse_value n ts ≠ .error (.UnexpectedChar c)) ∧
      (∀ ts c, parse_object n ts ≠ .error (.UnexpectedChar c)) ∧
      (∀ o ts c, parse_object_loop n o ts ≠ .error (.UnexpectedChar c)) ∧
      (∀ ts c, parse_array n ts ≠ .error (.UnexpectedChar c)) ∧
      (∀ a ts c, parse_array_loop n a ts ≠ .error (.UnexpectedChar c)) := by
  intro n
  induction n with
  | zero =>
    refine ⟨?_, ?_, ?_, ?_, ?_⟩ <;> intros <;>
      simp [parse_value, parse_object, parse_object_loop, parse_array,
        parse_array_loop]
  | succ n ih =>
    obtain ⟨ihv, iho, ihol, iha, ihal⟩ := ih
    refine ⟨?_, ?_, ?_, ?_, ?_⟩
    · intro ts c h
      cases ts with
      | nil => simp [parse_value] at h
      | cons t rest =>
        cases t <;> simp only [parse_value] at h <;>
          first
            | simp at h
            | exact iho _ _ h
            | exact iha _ _ h
    · intro ts c h
      cases ts with
      | nil => simp [parse_object] at h
      | cons t rest =>
        cases t <;> simp only [parse_object] at h <;>
          first
            | simp at h
            | exact ihol _ _ _ h
    · intro o ts c h
      simp only [parse_object_loop] at h
      split at h
      · simp at h
      split at h
      · rename_i e' heq
        injection h with h2
        subst h2
        split at heq
        · simp at heq
        · split at heq <;> simp at heq
      split at h
      · split at h
        · split at h
          · rename_i e' heq2
            injection h with h2
            subst h2
            exact ihv _ _ heq2
          · exact ihol _ _ _ h
        · simp at h
        · simp at h
      · simp at h
      · simp at h
    · intro ts c h
      cases ts with
      | nil => simp [parse_array] at h
      | cons t rest =>
        cases t <;> simp only [parse_array] at h <;>
          first
            | simp at h
            | exact ihal _ _ _ h
    · intro a ts c h
      simp only [parse_array_loop] at h
      split at h
      · simp at h
      split at h
      · rename_i e' heq
        injection h with h2
        subst h2
        split at heq
        · simp at heq
        · split at heq <;> simp at heq
      split at h
      · rename_i e' heq2
        injection h with h2
        subst h2
        exact ihv _ _ heq2
      · exact ihal _ _ _ h

/-- Claim C10: neither tokenize nor parse ever returns UnexpectedChar:
every scanner error is an UnexpectedToken or UnexpectedEnd, the catch-all
rejection of a character that begins no lexical class is an UnexpectedToken
carrying that character (as its one-character string), and parse never
produces the UnexpectedChar variant either, so the variant is unreachable
through the public interface even though error.rs declares it. -/
theorem c10_no_unexpected_char :
    (∀ (s : String) (e : Error), tokenize s = .error e →
      (∃ t, e = Error.UnexpectedToken t) ∨ e = .UnexpectedEnd) ∧
    (∀ (n : Nat) (c : Char) (rest : List Char),
      ¬(c = ' ' ∨ c = '\t' ∨ c = '\n' ∨ c = '\r') →
      c ≠ '[' → c ≠ '{' → c ≠ ']' → c ≠ '}' → c ≠ ':' → c ≠ ',' →
      c ≠ '"' → ¬(c = '-' ∨ c.isDigit) → c ≠ 'f' → c ≠ 'n' → c ≠ 't' →
      tokenizeAux (n + 1) (c :: rest) =
        .error (.UnexpectedToken (String.mk [c]))) ∧
    (∀ (ts : List Token) (c : Char),
      parse ts ≠ .error (.UnexpectedChar c)) := by
  refine ⟨?_, ?_, ?_⟩
  · intro s e h
    exact tokenizeAux_error_shape _ _ _ h
  · intro n c rest hws h1 h2 h3 h4 h5 h6 h7 hnum hf hn ht
    simp [tokenizeAux, hws, h1, h2, h3, h4, h5, h6, h7, hnum, hf, hn, ht]
  · intro ts c h
    unfold parse at h
    split at h
    · rename_i e heq
      injection h with h2
      subst h2
      exact (parse_no_unexpected_char _).1 _ _ heq
    · split at h <;> simp at h

/-- Claim C10 witness: each conjunct applied to a concrete input: the
rejected at-sign document for the scanner conjuncts and an empty token
sequence for the parser conjunct. -/
theorem c10_no_unexpected_char_witness :
    ((∃ t, Error.UnexpectedToken "@" = Error.UnexpectedToken t) ∨
      Error.UnexpectedToken "@" = Error.UnexpectedEnd) ∧
    tokenizeAux 1 ['@'] = .error (.UnexpectedToken "@") ∧
    parse [] ≠ .error (.UnexpectedChar '@') :=
  ⟨c10_no_unexpected_char.1 "@" (.UnexpectedToken "@") (by decide),
   c10_no_unexpected_char.2.1 0 '@' [] (by decide) (by decide) (by decide)
     (by decide) (by decide) (by decide) (by decide) (by decide) (by decide)
     (by decide) (by decide) (by decide),
   c10_no_unexpected_char.2.2 [] '@'⟩

end JsonRs
